import Mathlib

/-!
Verification development for the relational-state repository.

The repository maintains an append-only memory log of entries, a context
compiler that ranks and truncates retrieved entries, a promotion controller
that gates depth-incrementing state transitions, and a provider registry with
capability-based selection and ordered fallback.

This file shallowly embeds those components:
* pure Python functions become Lean functions over ℕ/ℤ/ℝ/String;
* external collaborators (tiktoken token counting, SHA-256, datetime
  formatting, the vector index query, the append-only log file) are passed in
  as explicit function arguments, so every theorem quantifies over them;
* Python exceptions become `Except String` results.
-/

namespace RelationalState

/-! ## Data model (`relational_domain/models.py`, `relational_engine/models.py`)

Timestamps are modelled as integers (days since an arbitrary epoch): the only
arithmetic the embedded code performs on a timestamp is `(now - ts).days`.
Rendering a timestamp to text (`strftime`, `isoformat`) is external library
behaviour and is passed in as a `DateFmt` record of rendering functions.
-/

/-- `Entry` from `models.py`: canonical memory entry of the append-only log. -/
structure Entry where
  id : String
  timestamp : ℤ
  author : String
  type : String
  content : String
  promotion_depth : ℕ
  trust_weight : ℝ
  metadata : List (String × String)

/-- `DomainConfig` from `models.py` (alias `Config`), restricted to the fields
the embedded components read. -/
structure DomainConfig where
  state_dir : String
  max_context_tokens : ℕ
  top_k_candidates : ℕ
  strict_entity_filtering : Bool
  max_promotion_depth : ℕ
  promotion_threshold : ℝ
  decay_k : ℝ
  recency_boost_days : ℕ
  recency_boost_factor : ℝ
  default_trust_weight : ℝ

/-- The pydantic defaults of `DomainConfig` in `models.py`. -/
noncomputable def DomainConfig.default : DomainConfig where
  state_dir := ".relational/state/"
  max_context_tokens := 2000
  top_k_candidates := 20
  strict_entity_filtering := true
  max_promotion_depth := 3
  promotion_threshold := 3 / 10
  decay_k := 2
  recency_boost_days := 30
  recency_boost_factor := 12 / 10
  default_trust_weight := 1

/-- External rendering of timestamps (`datetime.strftime` / `isoformat`). -/
structure DateFmt where
  date : ℤ → String
  dateTime : ℤ → String
  iso : ℤ → String

/-! ## Decay functions (`relational_engine/context_compiler.py`) -/

/-- `sigmoid_decay(depth, k) = 1.0 / (1.0 + math.exp(k * depth))`. -/
noncomputable def sigmoid_decay (depth : ℕ) (k : ℝ) : ℝ :=
  1 / (1 + Real.exp (k * depth))

/-- `linear_decay(depth, rate) = max(0.0, 1.0 - rate * depth)`. -/
noncomputable def linear_decay (depth : ℕ) (rate : ℝ) : ℝ :=
  max 0 (1 - rate * depth)

/-! ## Canonical log fingerprints (`relational_domain/canonical_log.py`)

`normalize_content` strips leading/trailing whitespace (`str.strip()`) and
collapses runs of three or more newlines to exactly two
(`re.sub(r"\n\x7b3,\x7d", "\n\n", content)`).  The SHA-256 hex digest itself
is an external primitive and is passed in as a function `sha256hex`.
-/

/-- Python `str.strip()` on the underlying character list. -/
def pyStrip (l : List Char) : List Char :=
  ((l.dropWhile Char.isWhitespace).reverse.dropWhile Char.isWhitespace).reverse

/-- Emit one maximal run of `n` newlines, collapsing runs of three or more to
exactly two. -/
def emitNewlineRun (n : ℕ) : List Char :=
  List.replicate (if 3 ≤ n then 2 else n) '\n'

/-- Scan a character list, collapsing maximal newline runs via
`emitNewlineRun`; `n` counts the newline run currently being read. -/
def collapseNewlines : ℕ → List Char → List Char
  | n, [] => emitNewlineRun n
  | n, c :: cs =>
    if c = '\n' then collapseNewlines (n + 1) cs
    else emitNewlineRun n ++ c :: collapseNewlines 0 cs

/-- `normalize_content(content)`: strip, then collapse newline runs. -/
def normalize_content (content : String) : String :=
  String.mk (collapseNewlines 0 (pyStrip content.data))

/-- `generate_entry_id(content)`: SHA-256 hex digest of the normalized
content; the digest function is an explicit argument. -/
def generate_entry_id (sha256hex : String → String) (content : String) : String :=
  sha256hex (normalize_content content)

/-! ## Context compiler (`relational_engine/context_compiler.py`)

`compile_context` first queries the external vector index; the list of
`(entry, relevance_score)` candidates returned by that query is therefore an
input of the embedding.  Token counting (`tiktoken`) is external and passed in
as `count_tokens`.  `datetime.now()` is the explicit argument `now`.
A Python `ValueError` becomes `Except.error`.
-/

/-- `ContextEntry` from `models.py`: per-query derived view of an entry. -/
structure ContextEntry where
  entry_id : String
  content : String
  relevance_score : ℝ
  final_weight : ℝ
  promotion_depth : ℕ
  timestamp : ℤ
  author : String

/-- `ContextEnvelope` from `models.py`: the result of one compilation. -/
structure ContextEnvelope where
  entity_id : String
  task_description : String
  scope : List String
  entries : List ContextEntry
  total_tokens : ℕ
  generated_at : ℤ

/-- The decay-factor dispatch inside the candidate loop of
`ContextCompiler.compile_context`: `sigmoid` / `linear` by name, anything else
raises `ValueError(f"Unknown decay function: ...")`. -/
noncomputable def decay_factor_for (cfg : DomainConfig) (decay_function : String)
    (depth : ℕ) : Except String ℝ :=
  if decay_function = "sigmoid" then .ok (sigmoid_decay depth cfg.decay_k)
  else if decay_function = "linear" then .ok (linear_decay depth (33 / 100))
  else .error ("Unknown decay function: " ++ decay_function)

/-- One iteration of the reweighting loop of `compile_context`: decay factor,
recency factor, `final_weight = trust_weight * relevance_score * decay_factor
* recency_factor`. -/
noncomputable def reweight_entry (cfg : DomainConfig) (decay_function : String)
    (now : ℤ) (p : Entry × ℝ) : Except String ContextEntry :=
  match decay_factor_for cfg decay_function p.1.promotion_depth with
  | .error e => .error e
  | .ok decay_factor =>
    let recency_factor : ℝ :=
      if 0 < cfg.recency_boost_days then
        if now - p.1.timestamp ≤ (cfg.recency_boost_days : ℤ) then
          cfg.recency_boost_factor
        else 1
      else 1
    .ok { entry_id := p.1.id
          content := p.1.content
          relevance_score := p.2
          final_weight := p.1.trust_weight * p.2 * decay_factor * recency_factor
          promotion_depth := p.1.promotion_depth
          timestamp := p.1.timestamp
          author := p.1.author }

/-- The greedy loop of `ContextCompiler._truncate_to_token_limit`:
`current_tokens` accumulates; the loop breaks at the first entry whose
inclusion would exceed `max_tokens`. -/
def truncate_go (count_tokens : String → ℕ) (max_tokens : ℕ) :
    List ContextEntry → ℕ → List ContextEntry
  | [], _ => []
  | e :: rest, current_tokens =>
    let entry_tokens := count_tokens e.content
    if max_tokens < current_tokens + entry_tokens then []
    else e :: truncate_go count_tokens max_tokens rest (current_tokens + entry_tokens)

/-- `ContextCompiler._truncate_to_token_limit(entries, max_tokens)`. -/
def truncate_to_token_limit (count_tokens : String → ℕ)
    (entries : List ContextEntry) (max_tokens : ℕ) : List ContextEntry :=
  truncate_go count_tokens max_tokens entries 0

/-- The comparison handed to the ranking sort: Python's stable
`sort(key=final_weight, reverse=True)` keeps `a` before `b` exactly when
`b.final_weight ≤ a.final_weight`. -/
noncomputable def weight_le (a b : ContextEntry) : Bool :=
  decide (b.final_weight ≤ a.final_weight)

/-- `ContextCompiler.compile_context`: empty candidate set returns an empty
envelope; otherwise reweight every candidate (raising on an unknown decay
name), rank by descending final weight with a stable sort, truncate to the
token budget and sum the tokens of the accepted entries. -/
noncomputable def compile_context (count_tokens : String → ℕ) (cfg : DomainConfig)
    (candidates : List (Entry × ℝ)) (now : ℤ)
    (task_description entity_id : String) (scope : List String)
    (decay_function : String) : Except String ContextEnvelope :=
  if candidates.isEmpty then
    .ok { entity_id := entity_id
          task_description := task_description
          scope := scope
          entries := []
          total_tokens := 0
          generated_at := now }
  else
    match candidates.mapM (reweight_entry cfg decay_function now) with
    | .error e => .error e
    | .ok context_entries =>
      let ranked := context_entries.mergeSort weight_le
      let truncated := truncate_to_token_limit count_tokens ranked cfg.max_context_tokens
      .ok { entity_id := entity_id
            task_description := task_description
            scope := scope
            entries := truncated
            total_tokens := (truncated.map (fun e => count_tokens e.content)).sum
            generated_at := now }

/-! ## Promotion controller (`relational_domain/promotion.py`)

Formatting of floating point numbers inside human-readable reason strings
(`f"...{probability:.3f}..."`) is external rendering, passed in as `fmtR`.
`datetime.now()` is the explicit argument `now`; SHA-256 is `sha256hex`.
-/

/-- `PromotionDecision` from `promotion.py`. -/
structure PromotionDecision where
  allowed : Bool
  reason : String
  probability : Option ℝ
  new_entry : Option Entry

/-- Python `str.__getitem__` slice `s[:n]`. -/
def strTake (s : String) (n : ℕ) : String :=
  String.mk (s.data.take n)

/-- The promoted-content blob built inside `create_promoted_entry`. -/
def promoted_content (dfmt : DateFmt) (now : ℤ) (entry : Entry) (reason : String) :
    String :=
  "## " ++ dfmt.date now ++ ": Promoted Entry - " ++ reason ++
  "\n\n**Original Entry ID**: " ++ strTake entry.id 16 ++
  "...\n**Original Timestamp**: " ++ dfmt.dateTime entry.timestamp ++
  "\n**Promotion Depth**: " ++ toString entry.promotion_depth ++ " → " ++
  toString (entry.promotion_depth + 1) ++
  "\n**Reason**: " ++ reason ++
  "\n\n### Original Content\n\n" ++ entry.content ++
  "\n\n---\n\n**Note**: This is a promoted reflection. Promotion depth indicates how many levels\nremoved this is from the original ephemeral reasoning.\n"

/-- `create_promoted_entry(entry, reason)`: new content quoting the parent,
depth incremented by one, type `promotion`, trust weight inherited, metadata
recording provenance, id the content fingerprint of the new blob. -/
def create_promoted_entry (dfmt : DateFmt) (sha256hex : String → String)
    (now : ℤ) (entry : Entry) (reason : String) : Entry :=
  let content := promoted_content dfmt now entry reason
  { id := generate_entry_id sha256hex content
    timestamp := now
    author := entry.author
    type := "promotion"
    content := content
    promotion_depth := entry.promotion_depth + 1
    trust_weight := entry.trust_weight
    metadata := [("promoted_from", entry.id),
                 ("promotion_reason", reason),
                 ("original_timestamp", dfmt.iso entry.timestamp)] }

/-- `evaluate_promotion(entry, reason, config)`: hard depth ceiling first,
then the sigmoid probability at the prospective depth against the
threshold. -/
noncomputable def evaluate_promotion (fmtR : ℝ → String) (dfmt : DateFmt)
    (sha256hex : String → String) (now : ℤ)
    (entry : Entry) (reason : String) (config : DomainConfig) : PromotionDecision :=
  let new_depth := entry.promotion_depth + 1
  if config.max_promotion_depth < new_depth then
    { allowed := false
      reason := "Depth limit reached (current=" ++ toString entry.promotion_depth ++
        ", max=" ++ toString config.max_promotion_depth ++ ")"
      probability := some 0
      new_entry := none }
  else
    let probability := sigmoid_decay new_depth config.decay_k
    if probability < config.promotion_threshold then
      { allowed := false
        reason := "Probability too low (" ++ fmtR probability ++ " < " ++
          fmtR config.promotion_threshold ++ ")"
        probability := some probability
        new_entry := none }
    else
      { allowed := true
        reason := "Promotion allowed (probability=" ++ fmtR probability ++
          ", new_depth=" ++ toString new_depth ++ ")"
        probability := some probability
        new_entry := some (create_promoted_entry dfmt sha256hex now entry reason) }

/-- `promote_and_append(entry, reason, config, state_dir)`: evaluate, then
persist through the external append-only log collaborator `appendLog`
(`append_entry_to_log`); an append failure is downgraded to a blocked
decision that keeps the computed probability, paired with `appended=False`. -/
noncomputable def promote_and_append (fmtR : ℝ → String) (dfmt : DateFmt)
    (sha256hex : String → String) (appendLog : Entry → String → Except String Unit)
    (now : ℤ) (entry : Entry) (reason : String) (config : DomainConfig)
    (state_dir : Option String) : PromotionDecision × Bool :=
  let sd := state_dir.getD config.state_dir
  let decision := evaluate_promotion fmtR dfmt sha256hex now entry reason config
  if decision.allowed = false then (decision, false)
  else
    match decision.new_entry with
    | none => (decision, false)
    | some ne =>
      match appendLog ne sd with
      | .ok _ => (decision, true)
      | .error e =>
        ({ allowed := false
           reason := "Failed to append to log: " ++ e
           probability := decision.probability
           new_entry := none }, false)

/-! ## Provider registry (`relational_domain/providers/base.py`, `registry.py`)

Providers are modelled behaviourally: a descriptor, an availability flag
(`is_available()` never throws, so a `Bool` is faithful), and a deterministic
`invoke` function from an operation name and keyword arguments to a
`ProviderInvocationResult` — the contract every provider in the repository
implements (each catches its internal exceptions and returns a failure
result).  Keyword arguments are an opaque association list.
-/

/-- `ProviderCapability` enum from `base.py`. -/
inductive ProviderCapability where
  | EMBED
  | SUMMARIZE
  | COMPILE_CONTEXT
  | PROMOTE
deriving DecidableEq

/-- The `.value` strings of the `ProviderCapability` enum. -/
def ProviderCapability.value : ProviderCapability → String
  | .EMBED => "embed"
  | .SUMMARIZE => "summarize"
  | .COMPILE_CONTEXT => "compile_context"
  | .PROMOTE => "promote"

/-- `ProviderDescriptor` from `base.py`. -/
structure ProviderDescriptor where
  name : String
  provider_type : String
  capabilities : List ProviderCapability
  requires_credentials : Bool
  embedding_dimensions : Option ℕ

/-- `ProviderInvocationResult` from `base.py`.  The payload is an embedding
vector when present; `metadata` is a string-keyed association list whose most
recent binding wins on lookup (Python dict assignment). -/
structure ProviderInvocationResult where
  success : Bool
  provider_used : String
  result : Option (List ℝ)
  metadata : List (String × String)
  fallback_occurred : Bool
  error_message : Option String

/-- Opaque keyword arguments forwarded verbatim to every provider tried. -/
def Kwargs := List (String × String)

/-- Behavioural model of one provider (`Provider` ABC in `base.py`). -/
structure Provider where
  descriptor : ProviderDescriptor
  available : Bool
  invoke : String → Kwargs → ProviderInvocationResult

/-- `ProviderRegistry` with its `ProviderPreference`: a name-to-provider map,
the configured default fallback order, and the entity affinity map. -/
structure ProviderRegistry where
  providers : List (String × Provider)
  default_order : List String
  entity_affinity : List (String × String)

/-- `ProviderRegistry.get_provider(name)`. -/
def ProviderRegistry.get_provider (reg : ProviderRegistry) (name : String) :
    Option Provider :=
  reg.providers.lookup name

/-- The qualification test repeated in each branch of `select_provider`:
the name resolves to a provider that is available and declares the
capability.  Returns the name/provider pair when it qualifies. -/
def qualifying (reg : ProviderRegistry) (cap : ProviderCapability)
    (name : String) : Option (String × Provider) :=
  match reg.get_provider name with
  | none => none
  | some p =>
    if p.available && decide (cap ∈ p.descriptor.capabilities) then some (name, p)
    else none

/-- The final branch of `select_provider`: first qualifying provider in the
configured default order. -/
def select_first (reg : ProviderRegistry) (cap : ProviderCapability) :
    List String → Option (String × Provider)
  | [] => none
  | n :: rest =>
    match qualifying reg cap n with
    | some np => some np
    | none => select_first reg cap rest

/-- `ProviderRegistry.select_provider(capability, entity, preferred_provider)`:
explicit preference, then entity affinity, then the default order.  Python
truthiness makes an empty-string preference or entity behave like `None`. -/
def select_provider (reg : ProviderRegistry) (cap : ProviderCapability)
    (entity preferred : Option String) : Option (String × Provider) :=
  let fromPreferred :=
    match preferred with
    | some pn => if pn.isEmpty then none else qualifying reg cap pn
    | none => none
  match fromPreferred with
  | some np => some np
  | none =>
    let fromAffinity :=
      match entity with
      | some en =>
        if en.isEmpty then none
        else
          match reg.entity_affinity.lookup en with
          | some an => qualifying reg cap an
          | none => none
      | none => none
    match fromAffinity with
    | some np => some np
    | none => select_first reg cap reg.default_order

/-- Rendering of `Optional[str]` inside a Python f-string. -/
def errStr : Option String → String
  | none => "None"
  | some s => s

/-- One iteration of the fallback loop of `invoke_with_fallback`: `none` when
the loop `continue`s past `name` (it equals the preferred name, is not
registered, is unavailable, or lacks the capability), otherwise the raw
result of invoking that provider. -/
def fallback_attempt (reg : ProviderRegistry) (cap : ProviderCapability)
    (operation : String) (preferred : Option String) (args : Kwargs)
    (name : String) : Option ProviderInvocationResult :=
  if preferred = some name then none
  else
    match reg.get_provider name with
    | none => none
    | some p =>
      if p.available && decide (cap ∈ p.descriptor.capabilities) then
        some (p.invoke operation args)
      else none

/-- The fallback loop of `invoke_with_fallback` over the default order,
instrumented with the list of registry names whose operation actually got
invoked.  On the first success the result is returned with
`fallback_occurred=True` and `metadata["fallback_from"]` set to the primary
result's `provider_used`. -/
def fallback_loop (reg : ProviderRegistry) (cap : ProviderCapability)
    (operation : String) (preferred : Option String) (args : Kwargs)
    (primary_result : ProviderInvocationResult) :
    List String → Option ProviderInvocationResult × List String
  | [] => (none, [])
  | name :: rest =>
    match fallback_attempt reg cap operation preferred args name with
    | none => fallback_loop reg cap operation preferred args primary_result rest
    | some r =>
      if r.success then
        (some { r with
                fallback_occurred := true
                metadata := ("fallback_from", primary_result.provider_used) :: r.metadata },
         [name])
      else
        let step := fallback_loop reg cap operation preferred args primary_result rest
        (step.1, name :: step.2)

/-- `ProviderRegistry.invoke_with_fallback`, instrumented with the ordered
list of registry names whose operation was invoked during the call. -/
def invoke_with_fallback_traced (reg : ProviderRegistry) (cap : ProviderCapability)
    (operation : String) (entity preferred : Option String) (args : Kwargs) :
    ProviderInvocationResult × List String :=
  match select_provider reg cap entity preferred with
  | none =>
    ({ success := false
       provider_used := "none"
       result := none
       metadata := []
       fallback_occurred := false
       error_message := some ("No provider available for capability: " ++ cap.value) }, [])
  | some (pname, p) =>
    let result := p.invoke operation args
    if result.success then (result, [pname])
    else
      match fallback_loop reg cap operation preferred args result reg.default_order with
      | (some r, tr) => (r, pname :: tr)
      | (none, tr) =>
        ({ success := false
           provider_used := "none"
           result := none
           metadata := []
           fallback_occurred := false
           error_message := some ("All providers failed for capability: " ++ cap.value ++
             ". Last error: " ++ errStr result.error_message) }, pname :: tr)

/-- `ProviderRegistry.invoke_with_fallback`: the returned
`ProviderInvocationResult`. -/
def invoke_with_fallback (reg : ProviderRegistry) (cap : ProviderCapability)
    (operation : String) (entity preferred : Option String) (args : Kwargs) :
    ProviderInvocationResult :=
  (invoke_with_fallback_traced reg cap operation entity preferred args).1

/-! ## Claim theorems -/

/-- C1: the claim states that `sigmoid_decay(0, k)` returns exactly `1.0` for
every steepness `k > 0`.  The implemented formula
`1.0 / (1.0 + math.exp(k * depth))` evaluates to `1/2` at depth `0` for every
`k`, contradicting the function's own docstring example
(`depth=0, k=2.0 -> 1.0 (no decay)`): the code, not the claim, is wrong. -/
theorem c1_sigmoid_decay_depth_zero_is_half (k : ℝ) :
    sigmoid_decay 0 k = 1 / 2 := by
  simp [sigmoid_decay, Real.exp_zero]
  norm_num

/-- C2: an entry whose `promotion_depth` already equals
`max_promotion_depth` is always denied with probability `0`, for every
reason, configuration and external collaborator. -/
theorem c2_depth_ceiling_always_denies (fmtR : ℝ → String) (dfmt : DateFmt)
    (sha256hex : String → String) (now : ℤ) (entry : Entry) (reason : String)
    (config : DomainConfig)
    (h : entry.promotion_depth = config.max_promotion_depth) :
    (evaluate_promotion fmtR dfmt sha256hex now entry reason config).allowed = false ∧
    (evaluate_promotion fmtR dfmt sha256hex now entry reason config).probability = some 0 := by
  have hlt : config.max_promotion_depth < entry.promotion_depth + 1 := by omega
  constructor <;> simp [evaluate_promotion, if_pos hlt]

/-- Witness for C2 at a concrete entry sitting at the default ceiling. -/
theorem c2_depth_ceiling_always_denies_witness :
    (evaluate_promotion (fun _ => "") ⟨fun _ => "", fun _ => "", fun _ => ""⟩
      (fun s => s) 0 ⟨"id0", 0, "alice", "event", "text", 3, 1, []⟩ "why"
      DomainConfig.default).allowed = false ∧
    (evaluate_promotion (fun _ => "") ⟨fun _ => "", fun _ => "", fun _ => ""⟩
      (fun s => s) 0 ⟨"id0", 0, "alice", "event", "text", 3, 1, []⟩ "why"
      DomainConfig.default).probability = some 0 :=
  c2_depth_ceiling_always_denies (fun _ => "") ⟨fun _ => "", fun _ => "", fun _ => ""⟩
    (fun s => s) 0 ⟨"id0", 0, "alice", "event", "text", 3, 1, []⟩ "why"
    DomainConfig.default rfl

/-- C5: whenever the prospective depth stays within the ceiling, the decision
reports exactly `sigmoid_decay(entry.promotion_depth + 1, decay_k)` — the
prospective depth, not the current one — in both the threshold-deny and the
allow branch. -/
theorem c5_probability_at_prospective_depth (fmtR : ℝ → String) (dfmt : DateFmt)
    (sha256hex : String → String) (now : ℤ) (entry : Entry) (reason : String)
    (config : DomainConfig)
    (h : entry.promotion_depth + 1 ≤ config.max_promotion_depth) :
    (evaluate_promotion fmtR dfmt sha256hex now entry reason config).probability =
      some (sigmoid_decay (entry.promotion_depth + 1) config.decay_k) := by
  have hnot : ¬ config.max_promotion_depth < entry.promotion_depth + 1 := by omega
  simp only [evaluate_promotion, if_neg hnot]
  split <;> rfl

/-- Witness for C5 at a concrete depth-0 entry under the default config. -/
theorem c5_probability_at_prospective_depth_witness :
    (evaluate_promotion (fun _ => "") ⟨fun _ => "", fun _ => "", fun _ => ""⟩
      (fun s => s) 0 ⟨"id0", 0, "alice", "event", "text", 0, 1, []⟩ "why"
      DomainConfig.default).probability =
      some (sigmoid_decay (0 + 1) DomainConfig.default.decay_k) :=
  c5_probability_at_prospective_depth (fun _ => "") ⟨fun _ => "", fun _ => "", fun _ => ""⟩
    (fun s => s) 0 ⟨"id0", 0, "alice", "event", "text", 0, 1, []⟩ "why"
    DomainConfig.default (by norm_num [DomainConfig.default])

/-- An allow decision always carries the freshly created promoted entry. -/
theorem evaluate_promotion_allowed_new_entry (fmtR : ℝ → String) (dfmt : DateFmt)
    (sha256hex : String → String) (now : ℤ) (entry : Entry) (reason : String)
    (config : DomainConfig)
    (h : (evaluate_promotion fmtR dfmt sha256hex now entry reason config).allowed = true) :
    (evaluate_promotion fmtR dfmt sha256hex now entry reason config).new_entry =
      some (create_promoted_entry dfmt sha256hex now entry reason) := by
  by_cases h1 : config.max_promotion_depth < entry.promotion_depth + 1
  · simp [evaluate_promotion, if_pos h1] at h
  · by_cases h2 : sigmoid_decay (entry.promotion_depth + 1) config.decay_k <
        config.promotion_threshold
    · simp only [evaluate_promotion, if_neg h1, if_pos h2] at h
      simp at h
    · simp only [evaluate_promotion, if_neg h1, if_neg h2]

/-- C8: when the promotion is allowed but the append to the log collaborator
fails, `promote_and_append` returns a blocked decision whose probability is
the one the allow decision computed, paired with `appended = false`. -/
theorem c8_append_failure_downgrades (fmtR : ℝ → String) (dfmt : DateFmt)
    (sha256hex : String → String) (appendLog : Entry → String → Except String Unit)
    (now : ℤ) (entry : Entry) (reason : String) (config : DomainConfig)
    (state_dir : Option String) (msg : String)
    (hallow : (evaluate_promotion fmtR dfmt sha256hex now entry reason config).allowed = true)
    (hfail : appendLog (create_promoted_entry dfmt sha256hex now entry reason)
      (state_dir.getD config.state_dir) = .error msg) :
    promote_and_append fmtR dfmt sha256hex appendLog now entry reason config state_dir =
      ({ allowed := false
         reason := "Failed to append to log: " ++ msg
         probability := (evaluate_promotion fmtR dfmt sha256hex now entry reason config).probability
         new_entry := none }, false) := by
  have hne := evaluate_promotion_allowed_new_entry fmtR dfmt sha256hex now entry reason
    config hallow
  simp only [promote_and_append, hallow, hne, hfail]
  simp

/-- A configuration under which promotion of a depth-0 entry is allowed:
defaults with `decay_k = 1` and `promotion_threshold = 1/5`. -/
noncomputable def cfgLenient : DomainConfig :=
  { DomainConfig.default with promotion_threshold := 1 / 5, decay_k := 1 }

/-- Under `cfgLenient` a depth-0 entry passes the gate:
`sigmoid_decay(1, 1) = 1/(1+e) ≥ 1/5` because `e < 4`. -/
theorem cfgLenient_allows :
    (evaluate_promotion (fun _ => "") ⟨fun _ => "", fun _ => "", fun _ => ""⟩
      (fun s => s) 0 ⟨"id0", 0, "alice", "event", "text", 0, 1, []⟩ "why"
      cfgLenient).allowed = true := by
  have h1 : ¬ cfgLenient.max_promotion_depth <
      (⟨"id0", 0, "alice", "event", "text", 0, 1, []⟩ : Entry).promotion_depth + 1 := by
    norm_num [cfgLenient, DomainConfig.default]
  have hexp : Real.exp 1 < 4 := lt_trans Real.exp_one_lt_d9 (by norm_num)
  have hpos : (0 : ℝ) < 1 + Real.exp 1 := by positivity
  have hval : sigmoid_decay ((⟨"id0", 0, "alice", "event", "text", 0, 1, []⟩ :
      Entry).promotion_depth + 1) cfgLenient.decay_k = 1 / (1 + Real.exp 1) := by
    simp [sigmoid_decay, cfgLenient]
  have h2 : ¬ sigmoid_decay ((⟨"id0", 0, "alice", "event", "text", 0, 1, []⟩ :
      Entry).promotion_depth + 1) cfgLenient.decay_k < cfgLenient.promotion_threshold := by
    rw [not_lt, hval]
    have hth : cfgLenient.promotion_threshold = 1 / 5 := rfl
    rw [hth, div_le_div_iff₀ (by norm_num) hpos]
    linarith
  simp only [evaluate_promotion, if_neg h1, if_neg h2]

/-- Witness for C8: concrete allowed promotion whose log append fails. -/
theorem c8_append_failure_downgrades_witness :
    promote_and_append (fun _ => "") ⟨fun _ => "", fun _ => "", fun _ => ""⟩
      (fun s => s) (fun _ _ => .error "disk full") 0
      ⟨"id0", 0, "alice", "event", "text", 0, 1, []⟩ "why" cfgLenient none =
      ({ allowed := false
         reason := "Failed to append to log: " ++ "disk full"
         probability := (evaluate_promotion (fun _ => "") ⟨fun _ => "", fun _ => "", fun _ => ""⟩
           (fun s => s) 0 ⟨"id0", 0, "alice", "event", "text", 0, 1, []⟩ "why"
           cfgLenient).probability
         new_entry := none }, false) :=
  c8_append_failure_downgrades (fun _ => "") ⟨fun _ => "", fun _ => "", fun _ => ""⟩
    (fun s => s) (fun _ _ => .error "disk full") 0
    ⟨"id0", 0, "alice", "event", "text", 0, 1, []⟩ "why" cfgLenient none "disk full"
    cfgLenient_allows rfl

/-- C9: `create_promoted_entry` increments the depth by exactly one, stamps
type `promotion`, inherits the trust weight, records provenance metadata, and
derives the id as the content fingerprint of the newly built blob; assuming
the digest is collision-free on the contents involved and the parent's id is
the fingerprint of the parent's content (the documented `Entry` invariant),
the new id differs from the parent's whenever the normalized contents
differ.  Identity of ids under retry with identical inputs is immediate
because the id is a pure function of the blob. -/
theorem c9_create_promoted_entry_shape (dfmt : DateFmt) (sha256hex : String → String)
    (now : ℤ) (parent : Entry) (reason : String)
    (hinj : Function.Injective sha256hex)
    (hid : parent.id = generate_entry_id sha256hex parent.content)
    (hne : normalize_content (promoted_content dfmt now parent reason) ≠
      normalize_content parent.content) :
    (create_promoted_entry dfmt sha256hex now parent reason).promotion_depth =
      parent.promotion_depth + 1 ∧
    (create_promoted_entry dfmt sha256hex now parent reason).type = "promotion" ∧
    (create_promoted_entry dfmt sha256hex now parent reason).trust_weight =
      parent.trust_weight ∧
    (create_promoted_entry dfmt sha256hex now parent reason).metadata.lookup
      "promoted_from" = some parent.id ∧
    (create_promoted_entry dfmt sha256hex now parent reason).metadata.lookup
      "promotion_reason" = some reason ∧
    (create_promoted_entry dfmt sha256hex now parent reason).metadata.lookup
      "original_timestamp" = some (dfmt.iso parent.timestamp) ∧
    (create_promoted_entry dfmt sha256hex now parent reason).content =
      promoted_content dfmt now parent reason ∧
    (create_promoted_entry dfmt sha256hex now parent reason).id =
      generate_entry_id sha256hex (promoted_content dfmt now parent reason) ∧
    (create_promoted_entry dfmt sha256hex now parent reason).id ≠ parent.id := by
  refine ⟨rfl, rfl, rfl, rfl, rfl, rfl, rfl, rfl, ?_⟩
  intro hcontra
  rw [hid] at hcontra
  exact hne (hinj hcontra)

/-- Witness for C9 at a concrete parent entry, with the digest instantiated
by an injective function. -/
theorem c9_create_promoted_entry_shape_witness :
    (create_promoted_entry ⟨fun _ => "2026-02-03", fun _ => "2026-02-03 00:00",
        fun _ => "2026-02-03T00:00:00"⟩ (fun s => s) 0
      ⟨"hello", 0, "alice", "event", "hello", 0, 1, []⟩ "why").promotion_depth = 0 + 1 ∧
    (create_promoted_entry ⟨fun _ => "2026-02-03", fun _ => "2026-02-03 00:00",
        fun _ => "2026-02-03T00:00:00"⟩ (fun s => s) 0
      ⟨"hello", 0, "alice", "event", "hello", 0, 1, []⟩ "why").type = "promotion" ∧
    (create_promoted_entry ⟨fun _ => "2026-02-03", fun _ => "2026-02-03 00:00",
        fun _ => "2026-02-03T00:00:00"⟩ (fun s => s) 0
      ⟨"hello", 0, "alice", "event", "hello", 0, 1, []⟩ "why").trust_weight = 1 ∧
    (create_promoted_entry ⟨fun _ => "2026-02-03", fun _ => "2026-02-03 00:00",
        fun _ => "2026-02-03T00:00:00"⟩ (fun s => s) 0
      ⟨"hello", 0, "alice", "event", "hello", 0, 1, []⟩ "why").metadata.lookup
      "promoted_from" = some "hello" ∧
    (create_promoted_entry ⟨fun _ => "2026-02-03", fun _ => "2026-02-03 00:00",
        fun _ => "2026-02-03T00:00:00"⟩ (fun s => s) 0
      ⟨"hello", 0, "alice", "event", "hello", 0, 1, []⟩ "why").metadata.lookup
      "promotion_reason" = some "why" ∧
    (create_promoted_entry ⟨fun _ => "2026-02-03", fun _ => "2026-02-03 00:00",
        fun _ => "2026-02-03T00:00:00"⟩ (fun s => s) 0
      ⟨"hello", 0, "alice", "event", "hello", 0, 1, []⟩ "why").metadata.lookup
      "original_timestamp" = some "2026-02-03T00:00:00" ∧
    (create_promoted_entry ⟨fun _ => "2026-02-03", fun _ => "2026-02-03 00:00",
        fun _ => "2026-02-03T00:00:00"⟩ (fun s => s) 0
      ⟨"hello", 0, "alice", "event", "hello", 0, 1, []⟩ "why").content =
      promoted_content ⟨fun _ => "2026-02-03", fun _ => "2026-02-03 00:00",
        fun _ => "2026-02-03T00:00:00"⟩ 0
        ⟨"hello", 0, "alice", "event", "hello", 0, 1, []⟩ "why" ∧
    (create_promoted_entry ⟨fun _ => "2026-02-03", fun _ => "2026-02-03 00:00",
        fun _ => "2026-02-03T00:00:00"⟩ (fun s => s) 0
      ⟨"hello", 0, "alice", "event", "hello", 0, 1, []⟩ "why").id =
      generate_entry_id (fun s => s)
        (promoted_content ⟨fun _ => "2026-02-03", fun _ => "2026-02-03 00:00",
          fun _ => "2026-02-03T00:00:00"⟩ 0
          ⟨"hello", 0, "alice", "event", "hello", 0, 1, []⟩ "why") ∧
    (create_promoted_entry ⟨fun _ => "2026-02-03", fun _ => "2026-02-03 00:00",
        fun _ => "2026-02-03T00:00:00"⟩ (fun s => s) 0
      ⟨"hello", 0, "alice", "event", "hello", 0, 1, []⟩ "why").id ≠ "hello" :=
  c9_create_promoted_entry_shape ⟨fun _ => "2026-02-03", fun _ => "2026-02-03 00:00",
      fun _ => "2026-02-03T00:00:00"⟩ (fun s => s) 0
    ⟨"hello", 0, "alice", "event", "hello", 0, 1, []⟩ "why"
    (fun _ _ h => h) (by decide) (by decide)

/-- C3 counterexample: the claim asserts that an unknown `decay_function`
name is rejected before the vector index is queried, for every candidate-set
state including the empty one.  In the code the vector query is the first
step and the name check sits inside the per-candidate loop, so with an empty
candidate set the call returns an empty envelope successfully instead of
failing: here `compile_context` with decay name `"bogus"` and no candidates
returns `ok`. -/
theorem c3_counterexample_empty_candidates_accept_unknown_name :
    compile_context String.length DomainConfig.default [] 0 "task" "alice" [] "bogus" =
      Except.ok { entity_id := "alice"
                  task_description := "task"
                  scope := []
                  entries := []
                  total_tokens := 0
                  generated_at := 0 } := rfl

/-- C3 amended: an unknown decay-function name raises
`ValueError("Unknown decay function: ...")` only after the vector index has
been queried (the query result is an input of the embedded call), and only
when that query returned at least one candidate; the error is raised while
reweighting the first candidate. -/
theorem c3_unknown_decay_rejected_on_first_candidate (count_tokens : String → ℕ)
    (cfg : DomainConfig) (c : Entry × ℝ) (cs : List (Entry × ℝ)) (now : ℤ)
    (task_description entity_id : String) (scope : List String) (name : String)
    (hs : name ≠ "sigmoid") (hl : name ≠ "linear") :
    compile_context count_tokens cfg (c :: cs) now task_description entity_id scope name =
      Except.error ("Unknown decay function: " ++ name) := by
  have hd : decay_factor_for cfg name c.1.promotion_depth =
      .error ("Unknown decay function: " ++ name) := by
    simp [decay_factor_for, hs, hl]
  have hr : reweight_entry cfg name now c =
      .error ("Unknown decay function: " ++ name) := by
    simp only [reweight_entry, hd]
  have hm : List.mapM.loop (reweight_entry cfg name now) (c :: cs) [] =
      (.error ("Unknown decay function: " ++ name) : Except String (List ContextEntry)) := by
    simp only [List.mapM.loop, hr]
    rfl
  simp [compile_context, List.mapM, hm]

/-- Witness for the amended C3 at a one-candidate query result. -/
theorem c3_unknown_decay_rejected_on_first_candidate_witness :
    compile_context String.length DomainConfig.default
      [(⟨"e1", 0, "alice", "event", "txt", 0, 1, []⟩, 1)] 0 "task" "alice" [] "bogus" =
      Except.error ("Unknown decay function: " ++ "bogus") :=
  c3_unknown_decay_rejected_on_first_candidate String.length DomainConfig.default
    (⟨"e1", 0, "alice", "event", "txt", 0, 1, []⟩, 1) [] 0 "task" "alice" [] "bogus"
    (by decide) (by decide)

/-- The greedy truncation loop keeps the running token total within the
budget whenever it starts within the budget. -/
theorem truncate_go_sum_le (tk : String → ℕ) (mx : ℕ) :
    ∀ (l : List ContextEntry) (cur : ℕ), cur ≤ mx →
      cur + ((truncate_go tk mx l cur).map (fun e => tk e.content)).sum ≤ mx
  | [], cur, h => by simpa [truncate_go]
  | e :: rest, cur, h => by
    by_cases hc : mx < cur + tk e.content
    · simpa [truncate_go, hc]
    · have ih := truncate_go_sum_le tk mx rest (cur + tk e.content) (by omega)
      simp only [truncate_go, if_neg hc, List.map_cons, List.sum_cons]
      omega

/-- The greedy truncation loop returns a prefix of its input, and the first
entry it leaves out (when any) would push the running total over the
budget. -/
theorem truncate_go_split (tk : String → ℕ) (mx : ℕ) :
    ∀ (l : List ContextEntry) (cur : ℕ),
      ∃ rest, l = truncate_go tk mx l cur ++ rest ∧
        ∀ h : rest ≠ [],
          mx < cur + ((truncate_go tk mx l cur).map (fun e => tk e.content)).sum +
            tk ((rest.head h).content)
  | [], cur => ⟨[], by simp [truncate_go], fun h => absurd rfl h⟩
  | e :: rest, cur => by
    by_cases hc : mx < cur + tk e.content
    · refine ⟨e :: rest, by simp [truncate_go, hc], fun h => ?_⟩
      simp [truncate_go, hc]
    · obtain ⟨r, hr1, hr2⟩ := truncate_go_split tk mx rest (cur + tk e.content)
      refine ⟨r, ?_, ?_⟩
      · simp only [truncate_go, if_neg hc, List.cons_append]
        exact congrArg (e :: ·) hr1
      · intro h
        have := hr2 h
        simp only [truncate_go, if_neg hc, List.map_cons, List.sum_cons]
        omega

/-- The ranking sort really sorts: the output of `mergeSort weight_le` is
pairwise non-increasing in `final_weight`. -/
theorem ranked_pairwise (l : List ContextEntry) :
    (l.mergeSort weight_le).Pairwise (fun a b => b.final_weight ≤ a.final_weight) := by
  have htrans : ∀ a b c : ContextEntry, weight_le a b = true → weight_le b c = true →
      weight_le a c = true := by
    intro a b c hab hbc
    simp only [weight_le, decide_eq_true_iff] at *
    exact le_trans hbc hab
  have htotal : ∀ a b : ContextEntry, (weight_le a b || weight_le b a) = true := by
    intro a b
    simp only [weight_le, Bool.or_eq_true, decide_eq_true_iff]
    exact le_total b.final_weight a.final_weight
  have hs := List.sorted_mergeSort htrans htotal l
  exact hs.imp (fun hab => by simpa [weight_le, decide_eq_true_iff] using hab)

/-- C7: a successful `compile_context` produces entries that are pairwise
non-increasing in `final_weight`; `total_tokens` is exactly the token sum of
the accepted entries and never exceeds `max_context_tokens`; and the accepted
entries are a prefix of a ranked permutation of all reweighted candidates
whose first omitted entry (when one exists) would overflow the budget — the
greedy cut with no skipping ahead. -/
theorem c7_compile_context_ranked_and_budgeted (count_tokens : String → ℕ)
    (cfg : DomainConfig) (candidates : List (Entry × ℝ)) (now : ℤ)
    (task_description entity_id : String) (scope : List String) (name : String)
    (env : ContextEnvelope)
    (h : compile_context count_tokens cfg candidates now task_description entity_id
      scope name = .ok env) :
    env.entries.Pairwise (fun a b => b.final_weight ≤ a.final_weight) ∧
    env.total_tokens = (env.entries.map (fun e => count_tokens e.content)).sum ∧
    env.total_tokens ≤ cfg.max_context_tokens ∧
    ∃ ces rest, candidates.mapM (reweight_entry cfg name now) = .ok ces ∧
      (env.entries ++ rest).Perm ces ∧
      (env.entries ++ rest).Pairwise (fun a b => b.final_weight ≤ a.final_weight) ∧
      ∀ hr : rest ≠ [],
        cfg.max_context_tokens < env.total_tokens + count_tokens ((rest.head hr).content) := by
  by_cases hemp : candidates.isEmpty
  · have hcand : candidates = [] := List.isEmpty_iff.mp hemp
    subst hcand
    simp only [compile_context, List.isEmpty_nil, if_pos] at h
    obtain rfl : ({ entity_id := entity_id,
                    task_description := task_description,
                    scope := scope, entries := [], total_tokens := 0,
                    generated_at := now } : ContextEnvelope) = env := by
      exact (Except.ok.injEq _ _).mp h
    refine ⟨by simp, by simp, by simp, [], [], rfl, by simp, by simp, fun hr => absurd rfl hr⟩
  · simp only [compile_context, hemp, if_false] at h
    match hres : candidates.mapM (reweight_entry cfg name now) with
    | .error e => rw [hres] at h; exact absurd h (by simp)
    | .ok ces =>
      rw [hres] at h
      obtain rfl : ({ entity_id := entity_id,
                      task_description := task_description,
                      scope := scope,
                      entries := truncate_to_token_limit count_tokens
                        (ces.mergeSort weight_le) cfg.max_context_tokens,
                      total_tokens := ((truncate_to_token_limit count_tokens
                        (ces.mergeSort weight_le) cfg.max_context_tokens).map
                        (fun e => count_tokens e.content)).sum,
                      generated_at := now } : ContextEnvelope) = env := by
        exact (Except.ok.injEq _ _).mp h
      obtain ⟨rest, hsplit, hover⟩ :=
        truncate_go_split count_tokens cfg.max_context_tokens (ces.mergeSort weight_le) 0
      have hsorted := ranked_pairwise ces
      have hsplit' : ces.mergeSort weight_le =
          truncate_to_token_limit count_tokens (ces.mergeSort weight_le)
            cfg.max_context_tokens ++ rest := hsplit
      have hperm : (truncate_to_token_limit count_tokens (ces.mergeSort weight_le)
          cfg.max_context_tokens ++ rest).Perm ces := by
        rw [← hsplit']
        exact List.mergeSort_perm ces weight_le
      have hsortfull : (truncate_to_token_limit count_tokens (ces.mergeSort weight_le)
          cfg.max_context_tokens ++ rest).Pairwise
          (fun a b => b.final_weight ≤ a.final_weight) := by
        rw [← hsplit']
        exact hsorted
      have hsum := truncate_go_sum_le count_tokens cfg.max_context_tokens
        (ces.mergeSort weight_le) 0 (Nat.zero_le _)
      refine ⟨?_, rfl, ?_, ces, rest, rfl, hperm, hsortfull, ?_⟩
      · exact hsortfull.sublist (List.sublist_append_left _ _)
      · show ((truncate_go count_tokens cfg.max_context_tokens
          (ces.mergeSort weight_le) 0).map (fun e => count_tokens e.content)).sum ≤
          cfg.max_context_tokens
        omega
      · intro hr
        have hov := hover hr
        show cfg.max_context_tokens <
          ((truncate_go count_tokens cfg.max_context_tokens
            (ces.mergeSort weight_le) 0).map (fun e => count_tokens e.content)).sum +
          count_tokens ((rest.head hr).content)
        omega

/-- The envelope that a query with no candidates produces, for the C7
witness. -/
def envelope_alice_empty : ContextEnvelope :=
  { entity_id := "alice"
    task_description := "task"
    scope := []
    entries := []
    total_tokens := 0
    generated_at := 0 }

/-- Witness for C7 at a concrete empty query result. -/
theorem c7_compile_context_ranked_and_budgeted_witness :
    envelope_alice_empty.entries.Pairwise
      (fun a b => b.final_weight ≤ a.final_weight) ∧
    envelope_alice_empty.total_tokens =
      (envelope_alice_empty.entries.map (fun e => String.length e.content)).sum ∧
    envelope_alice_empty.total_tokens ≤ DomainConfig.default.max_context_tokens ∧
    ∃ ces rest, ([] : List (Entry × ℝ)).mapM
        (reweight_entry DomainConfig.default "sigmoid" 0) = .ok ces ∧
      (envelope_alice_empty.entries ++ rest).Perm ces ∧
      (envelope_alice_empty.entries ++ rest).Pairwise
        (fun a b => b.final_weight ≤ a.final_weight) ∧
      ∀ hr : rest ≠ [],
        DomainConfig.default.max_context_tokens <
          envelope_alice_empty.total_tokens + String.length ((rest.head hr).content) :=
  c7_compile_context_ranked_and_budgeted String.length DomainConfig.default [] 0
    "task" "alice" [] "sigmoid" envelope_alice_empty rfl

/-- Whether the fallback loop, reaching `name`, would invoke it and get a
success: `false` both when the loop skips `name` (preferred, unregistered,
unavailable, capability missing) and when the invocation fails. -/
def fallback_attempt_ok (reg : ProviderRegistry) (cap : ProviderCapability)
    (operation : String) (preferred : Option String) (args : Kwargs)
    (name : String) : Bool :=
  match fallback_attempt reg cap operation preferred args name with
  | none => false
  | some r => r.success

/-- If no name in the remaining order yields a successful attempt, the
fallback loop returns no result. -/
theorem fallback_loop_fst_none (reg : ProviderRegistry) (cap : ProviderCapability)
    (operation : String) (preferred : Option String) (args : Kwargs)
    (primary_result : ProviderInvocationResult) :
    ∀ l : List String, (∀ m ∈ l, fallback_attempt_ok reg cap operation preferred args m = false) →
      (fallback_loop reg cap operation preferred args primary_result l).1 = none
  | [], _ => by simp [fallback_loop]
  | name :: rest, h => by
    have hrest := fallback_loop_fst_none reg cap operation preferred args primary_result
      rest (fun m hm => h m (List.mem_cons_of_mem _ hm))
    have hname := h name (List.mem_cons_self _ _)
    cases ha : fallback_attempt reg cap operation preferred args name with
    | none => simpa [fallback_loop, ha] using hrest
    | some r =>
      have hs : r.success = false := by
        simpa [fallback_attempt_ok, ha] using hname
      simpa [fallback_loop, ha, hs] using hrest

/-- The fallback loop returns the first successful attempt, with
`fallback_occurred` set and the primary result's `provider_used` recorded
under `fallback_from`. -/
theorem fallback_loop_fst_first_success (reg : ProviderRegistry)
    (cap : ProviderCapability) (operation : String) (preferred : Option String)
    (args : Kwargs) (primary_result : ProviderInvocationResult)
    (n : String) (l₂ : List String) (r : ProviderInvocationResult)
    (hn : fallback_attempt reg cap operation preferred args n = some r)
    (hr : r.success = true) :
    ∀ l₁ : List String,
      (∀ m ∈ l₁, fallback_attempt_ok reg cap operation preferred args m = false) →
      (fallback_loop reg cap operation preferred args primary_result (l₁ ++ n :: l₂)).1 =
        some { r with
               fallback_occurred := true
               metadata := ("fallback_from", primary_result.provider_used) :: r.metadata }
  | [], _ => by simp [fallback_loop, hn, hr]
  | name :: rest, h => by
    have ih := fallback_loop_fst_first_success reg cap operation preferred args
      primary_result n l₂ r hn hr rest (fun m hm => h m (List.mem_cons_of_mem _ hm))
    have hname := h name (List.mem_cons_self _ _)
    cases ha : fallback_attempt reg cap operation preferred args name with
    | none => simpa [fallback_loop, ha] using ih
    | some s =>
      have hs : s.success = false := by
        simpa [fallback_attempt_ok, ha] using hname
      simpa [fallback_loop, ha, hs] using ih

/-- The names the fallback loop invokes form a sublist of the default order
filtered to names different from the preferred one. -/
theorem fallback_loop_trace_sublist (reg : ProviderRegistry)
    (cap : ProviderCapability) (operation : String) (preferred : Option String)
    (args : Kwargs) (primary_result : ProviderInvocationResult) :
    ∀ l : List String,
      ((fallback_loop reg cap operation preferred args primary_result l).2).Sublist
        (l.filter (fun n => !(decide (preferred = some n))))
  | [] => by simp [fallback_loop]
  | name :: rest => by
    have ih := fallback_loop_trace_sublist reg cap operation preferred args
      primary_result rest
    by_cases hskip : preferred = some name
    · have ha : fallback_attempt reg cap operation preferred args name = none := by
        simp [fallback_attempt, hskip]
      have hp : (!(decide (preferred = some name))) = false := by simp [hskip]
      simpa [fallback_loop, ha, List.filter_cons, hp] using ih
    · have hp : (!(decide (preferred = some name))) = true := by simp [hskip]
      cases ha : fallback_attempt reg cap operation preferred args name with
      | none =>
        simp only [fallback_loop, ha, List.filter_cons, hp, if_true]
        exact ih.cons name
      | some r =>
        by_cases hs : r.success
        · simp only [fallback_loop, ha, hs, if_true, List.filter_cons, hp]
          exact (List.nil_sublist _).cons₂ name
        · simp only [fallback_loop, ha, hs, if_false, List.filter_cons, hp, if_true]
          exact ih.cons₂ name

/-- A provider that is registered, available, declares EMBED, and whose
operations always fail (as a sentence-transformers load failure would). -/
def failing_local : Provider :=
  { descriptor := { name := "local/all-MiniLM-L6-v2"
                    provider_type := "local"
                    capabilities := [ProviderCapability.EMBED]
                    requires_credentials := false
                    embedding_dimensions := some 384 }
    available := true
    invoke := fun _ _ =>
      { success := false
        provider_used := "local/all-MiniLM-L6-v2"
        result := none
        metadata := []
        fallback_occurred := false
        error_message := some "model load failed" } }

/-- A registry holding only the failing local provider, with the configured
default order `["local", "openai"]` from `registry.py`. -/
def reg_local_only : ProviderRegistry :=
  { providers := [("local", failing_local)]
    default_order := ["local", "openai"]
    entity_affinity := [] }

/-- C4 counterexample: with no `preferred` argument, the primary selected
from the default order is `local`; after its failure the fallback loop skips
only the preferred name, so `local` is invoked a second time — the claim
that no provider is ever invoked twice in one call is false.  The
invocation trace of the call is `["local", "local"]`. -/
theorem c4_counterexample_primary_invoked_twice :
    (invoke_with_fallback_traced reg_local_only ProviderCapability.EMBED "embed_text"
      none none ([] : Kwargs)).2 = ["local", "local"] ∧
    ¬ (["local", "local"] : List String).Nodup :=
  ⟨rfl, by decide⟩

/-- C4 amended: when the primary was selected through the `preferred`
argument (and the default order has no duplicate names), no provider's
operation is invoked more than once in a single `invoke_with_fallback`
call; a primary selected via entity affinity or the default order can be
re-invoked during fallback. -/
theorem c4_amended_preferred_primary_invoked_once (reg : ProviderRegistry)
    (cap : ProviderCapability) (operation : String) (entity preferred : Option String)
    (args : Kwargs) (pname : String) (prov : Provider)
    (hord : reg.default_order.Nodup)
    (hpref : preferred = some pname)
    (hsel : select_provider reg cap entity preferred = some (pname, prov)) :
    ((invoke_with_fallback_traced reg cap operation entity preferred args).2).Nodup := by
  simp only [invoke_with_fallback_traced, hsel]
  by_cases hps : (prov.invoke operation args).success
  · simp [hps]
  · simp only [hps, if_false]
    rcases hloop : fallback_loop reg cap operation preferred args
        (prov.invoke operation args) reg.default_order with ⟨res, tr⟩
    have htr : tr.Sublist (reg.default_order.filter
        (fun n => !(decide (preferred = some n)))) := by
      have := fallback_loop_trace_sublist reg cap operation preferred args
        (prov.invoke operation args) reg.default_order
      rw [hloop] at this
      exact this
    have htrnodup : tr.Nodup := (hord.filter _).sublist htr
    have hnotmem : pname ∉ tr := by
      intro hmem
      have hmemf := htr.subset hmem
      have := (List.mem_filter.mp hmemf).2
      rw [hpref] at this
      simp at this
    cases res with
    | none => simpa using List.nodup_cons.mpr ⟨hnotmem, htrnodup⟩
    | some r => simpa using List.nodup_cons.mpr ⟨hnotmem, htrnodup⟩

/-- Witness for the amended C4: primary selected via `preferred = "local"`;
the trace of the call contains no duplicate. -/
theorem c4_amended_preferred_primary_invoked_once_witness :
    ((invoke_with_fallback_traced reg_local_only ProviderCapability.EMBED "embed_text"
      none (some "local") ([] : Kwargs)).2).Nodup :=
  c4_amended_preferred_primary_invoked_once reg_local_only ProviderCapability.EMBED
    "embed_text" none (some "local") ([] : Kwargs) "local" failing_local
    (by decide) rfl rfl

/-- C6: when a primary is selected and fails, and some later attempt in the
default order is the first to succeed, `invoke_with_fallback` returns exactly
that success, marked `fallback_occurred = true`, with
`metadata["fallback_from"]` carrying the primary's `provider_used` — equal to
the primary's descriptor name whenever the provider reports itself that way,
as every provider in the repository does.  The embedded call is a total
function, so no exception reaches the caller. -/
theorem c6_fallback_returns_first_success (reg : ProviderRegistry)
    (cap : ProviderCapability) (operation : String) (entity preferred : Option String)
    (args : Kwargs) (pname : String) (prov : Provider) (l₁ : List String)
    (n : String) (l₂ : List String) (r : ProviderInvocationResult)
    (hsel : select_provider reg cap entity preferred = some (pname, prov))
    (hpfail : (prov.invoke operation args).success = false)
    (hord : reg.default_order = l₁ ++ n :: l₂)
    (hfail : ∀ m ∈ l₁, fallback_attempt_ok reg cap operation preferred args m = false)
    (hn : fallback_attempt reg cap operation preferred args n = some r)
    (hr : r.success = true)
    (hpu : (prov.invoke operation args).provider_used = prov.descriptor.name) :
    invoke_with_fallback reg cap operation entity preferred args =
      { r with
        fallback_occurred := true
        metadata := ("fallback_from", (prov.invoke operation args).provider_used) ::
          r.metadata } ∧
    (invoke_with_fallback reg cap operation entity preferred args).success = true ∧
    (invoke_with_fallback reg cap operation entity preferred args).fallback_occurred = true ∧
    (invoke_with_fallback reg cap operation entity preferred args).metadata.lookup
      "fallback_from" = some prov.descriptor.name := by
  have hloop1 := fallback_loop_fst_first_success reg cap operation preferred args
    (prov.invoke operation args) n l₂ r hn hr l₁ hfail
  have hmain : invoke_with_fallback reg cap operation entity preferred args =
      { r with
        fallback_occurred := true
        metadata := ("fallback_from", (prov.invoke operation args).provider_used) ::
          r.metadata } := by
    rw [invoke_with_fallback]
    simp only [invoke_with_fallback_traced, hsel, hpfail, if_false]
    rcases hloop : fallback_loop reg cap operation preferred args
        (prov.invoke operation args) reg.default_order with ⟨res, tr⟩
    rw [hord] at hloop
    rw [hloop] at hloop1
    simp only at hloop1
    subst hloop1
    simp
  refine ⟨hmain, ?_, ?_, ?_⟩
  · rw [hmain]; exact hr
  · rw [hmain]
  · rw [hmain]
    simp [List.lookup, hpu]

/-- A provider that is registered, available, declares EMBED, and always
succeeds. -/
def succeeding_openai : Provider :=
  { descriptor := { name := "openai/text-embedding-3-small"
                    provider_type := "openai"
                    capabilities := [ProviderCapability.EMBED]
                    requires_credentials := true
                    embedding_dimensions := some 1536 }
    available := true
    invoke := fun _ _ =>
      { success := true
        provider_used := "openai/text-embedding-3-small"
        result := some []
        metadata := []
        fallback_occurred := false
        error_message := none } }

/-- Registry with the failing local provider and the succeeding OpenAI
provider, default order `["local", "openai"]`. -/
def reg_local_openai : ProviderRegistry :=
  { providers := [("local", failing_local), ("openai", succeeding_openai)]
    default_order := ["local", "openai"]
    entity_affinity := [] }

/-- Witness for C6: local preferred and failing, OpenAI succeeding. -/
theorem c6_fallback_returns_first_success_witness :
    invoke_with_fallback reg_local_openai ProviderCapability.EMBED "embed_text"
      none (some "local") ([] : Kwargs) =
      { (succeeding_openai.invoke "embed_text" ([] : Kwargs)) with
        fallback_occurred := true
        metadata := ("fallback_from",
          (failing_local.invoke "embed_text" ([] : Kwargs)).provider_used) ::
          (succeeding_openai.invoke "embed_text" ([] : Kwargs)).metadata } ∧
    (invoke_with_fallback reg_local_openai ProviderCapability.EMBED "embed_text"
      none (some "local") ([] : Kwargs)).success = true ∧
    (invoke_with_fallback reg_local_openai ProviderCapability.EMBED "embed_text"
      none (some "local") ([] : Kwargs)).fallback_occurred = true ∧
    (invoke_with_fallback reg_local_openai ProviderCapability.EMBED "embed_text"
      none (some "local") ([] : Kwargs)).metadata.lookup "fallback_from" =
      some failing_local.descriptor.name :=
  c6_fallback_returns_first_success reg_local_openai ProviderCapability.EMBED
    "embed_text" none (some "local") ([] : Kwargs) "local" failing_local
    ["local"] "openai" [] (succeeding_openai.invoke "embed_text" ([] : Kwargs))
    rfl rfl rfl
    (by
      intro m hm
      simp only [List.mem_singleton] at hm
      subst hm
      rfl)
    rfl rfl rfl

/-- C10: when a primary is selected and invoked but it and every fallback
attempt fail, the call returns a data-carrying failure with
`provider_used = "none"` — the very value used when nothing was selected at
all — and the primary's original error survives only inside the
`error_message` text. -/
theorem c10_total_exhaustion_failure (reg : ProviderRegistry)
    (cap : ProviderCapability) (operation : String) (entity preferred : Option String)
    (args : Kwargs) (pname : String) (prov : Provider)
    (hsel : select_provider reg cap entity preferred = some (pname, prov))
    (hpfail : (prov.invoke operation args).success = false)
    (hall : ∀ m ∈ reg.default_order,
      fallback_attempt_ok reg cap operation preferred args m = false) :
    invoke_with_fallback reg cap operation entity preferred args =
      { success := false
        provider_used := "none"
        result := none
        metadata := []
        fallback_occurred := false
        error_message := some ("All providers failed for capability: " ++ cap.value ++
          ". Last error: " ++ errStr (prov.invoke operation args).error_message) } := by
  have hloop1 := fallback_loop_fst_none reg cap operation preferred args
    (prov.invoke operation args) reg.default_order hall
  rw [invoke_with_fallback]
  simp only [invoke_with_fallback_traced, hsel, hpfail, if_false]
  rcases hloop : fallback_loop reg cap operation preferred args
      (prov.invoke operation args) reg.default_order with ⟨res, tr⟩
  rw [hloop] at hloop1
  simp only at hloop1
  subst hloop1
  simp

/-- Witness for C10: only the failing local provider is registered; every
fallback attempt fails or is skipped. -/
theorem c10_total_exhaustion_failure_witness :
    invoke_with_fallback reg_local_only ProviderCapability.EMBED "embed_text"
      none none ([] : Kwargs) =
      { success := false
        provider_used := "none"
        result := none
        metadata := []
        fallback_occurred := false
        error_message := some ("All providers failed for capability: " ++
          ProviderCapability.EMBED.value ++ ". Last error: " ++
          errStr (failing_local.invoke "embed_text" ([] : Kwargs)).error_message) } :=
  c10_total_exhaustion_failure reg_local_only ProviderCapability.EMBED "embed_text"
    none none ([] : Kwargs) "local" failing_local rfl rfl
    (by
      intro m hm
      fin_cases hm <;> rfl)

end RelationalState
